import Mathlib

/-
Shallow embedding of fdintercept's core: the stream copier of src/fd.rs
(`inner_fd_event_readable`, `process_events_for_fd`, `process_fd`), the
process supervisor of src/process.rs (`kill_child_process_with_grace_period`,
`ChildGuard::drop`), the signal handler of src/signals.rs (`process_signals`),
and the orchestrator's exit-code mapping from src/main.rs.

I/O is modelled by scripts: a source file descriptor is a list of read
results, a sink is a list of `write_all` results (an exhausted script answers
`ok`, mirroring the repo's own `MockRead`/`MockWrite` test doubles), and the
poll loop consumes a list of per-cycle poll results.  Bytes are `Nat`.
-/

/-- The `Event` enum of src/fd.rs: `FdReady` (token 0) or `SignalReady`
(token 1). -/
inductive Event where
  | fdReady
  | signalReady
deriving DecidableEq

/-- The `ProcessEventsForFdSuccess` enum of src/fd.rs. -/
inductive ProcessEventsForFdSuccess where
  | dataLogged
  | eof
  | signal
deriving DecidableEq

/-- The `ProcessEventsForFdError` enum of src/fd.rs (payload `io::Error`
dropped; only the variant matters to control flow). -/
inductive ProcessEventsForFdError where
  | readE
  | writeE
  | logE
deriving DecidableEq

/-- One result of `src_fd.read(&mut buffer)`: `bytes c` is `Ok(c.len())`
with `c` deposited at the start of the buffer (so `bytes []` is `Ok(0)`,
EOF), `wouldBlock` is `Err(WouldBlock)`, `readErr` any other error. -/
inductive ReadRes where
  | bytes (chunk : List Nat)
  | wouldBlock
  | readErr
deriving DecidableEq

/-- One result of a sink's `write_all`. -/
inductive WriteRes where
  | ok
  | brokenPipe
  | writeErr
deriving DecidableEq

/-- State threaded through the copy loop: the remaining write scripts of the
destination and the log sink, whether `maybe_log` is `Some` (logging still
enabled), the reusable read buffer, and accumulators recording the
concatenation of bytes successfully read from the source, written to the
destination, and written to the log. -/
structure FdState where
  dstScript : List WriteRes
  logScript : List WriteRes
  logEnabled : Bool
  buffer : List Nat
  srcRead : List Nat
  dstWritten : List Nat
  logWritten : List Nat
deriving DecidableEq

/-- Consume the next scripted write result; an exhausted script answers
`ok` (as the repo's `MockWrite` does). -/
def popWrite : List WriteRes → WriteRes × List WriteRes
  | [] => (WriteRes.ok, [])
  | w :: ws => (w, ws)

/-- A `read` deposits the chunk at the start of the buffer; the rest of the
buffer keeps its previous contents. -/
def readIntoBuffer (c buffer : List Nat) : List Nat :=
  c ++ buffer.drop c.length

/-- The slice `&buffer[..bytes_read]` right after a read that returned `c.length`. -/
def readChunk (c buffer : List Nat) : List Nat :=
  (readIntoBuffer c buffer).take c.length

/-- The state right after `src_fd.read(&mut buffer)` returned chunk `c`. -/
def afterReadState (c : List Nat) (s : FdState) : FdState :=
  { s with buffer := readIntoBuffer c s.buffer, srcRead := s.srcRead ++ c }

/-- Function `inner_fd_event_readable` of src/fd.rs: keep reading from the source
until `WouldBlock` (→ `DataLogged`), `Ok(0)` (→ `Eof`), or an error; each
successful read is written to the destination (`BrokenPipe` → `Eof`, other
error → `Write` error) and then, if logging is enabled, to the log (any
error → `Log` error).  Returns the result, the unconsumed read script, and
the final state. -/
def innerFdEventReadable : List ReadRes → FdState →
    Except ProcessEventsForFdError ProcessEventsForFdSuccess × List ReadRes × FdState
  | [], s => (Except.ok ProcessEventsForFdSuccess.eof, [], s)
  | ReadRes.wouldBlock :: rest, s =>
      (Except.ok ProcessEventsForFdSuccess.dataLogged, rest, s)
  | ReadRes.readErr :: rest, s =>
      (Except.error ProcessEventsForFdError.readE, rest, s)
  | ReadRes.bytes [] :: rest, s =>
      (Except.ok ProcessEventsForFdSuccess.eof, rest, s)
  | ReadRes.bytes (x :: xs) :: rest, s =>
      match popWrite s.dstScript with
      | (WriteRes.brokenPipe, ds) =>
          (Except.ok ProcessEventsForFdSuccess.eof, rest,
            { afterReadState (x :: xs) s with dstScript := ds })
      | (WriteRes.writeErr, ds) =>
          (Except.error ProcessEventsForFdError.writeE, rest,
            { afterReadState (x :: xs) s with dstScript := ds })
      | (WriteRes.ok, ds) =>
          if s.logEnabled then
            match popWrite s.logScript with
            | (WriteRes.ok, ls) =>
                innerFdEventReadable rest
                  { afterReadState (x :: xs) s with
                      dstScript := ds,
                      dstWritten := s.dstWritten ++ readChunk (x :: xs) s.buffer,
                      logScript := ls,
                      logWritten := s.logWritten ++ readChunk (x :: xs) s.buffer }
            | (WriteRes.brokenPipe, ls) =>
                (Except.error ProcessEventsForFdError.logE, rest,
                  { afterReadState (x :: xs) s with
                      dstScript := ds,
                      dstWritten := s.dstWritten ++ readChunk (x :: xs) s.buffer,
                      logScript := ls })
            | (WriteRes.writeErr, ls) =>
                (Except.error ProcessEventsForFdError.logE, rest,
                  { afterReadState (x :: xs) s with
                      dstScript := ds,
                      dstWritten := s.dstWritten ++ readChunk (x :: xs) s.buffer,
                      logScript := ls })
          else
            innerFdEventReadable rest
              { afterReadState (x :: xs) s with
                  dstScript := ds,
                  dstWritten := s.dstWritten ++ readChunk (x :: xs) s.buffer }

/-- Function `process_events_for_fd` of src/fd.rs: zero events or a lone `FdReady`
drain the source; a lone `SignalReady` yields `Signal`; two events drain
first and yield `Signal` second regardless of order; more than two events
hit `unreachable!` (modelled as `none`). -/
def processEventsForFd (events : List Event) (reads : List ReadRes) (s : FdState) :
    Option (List (Except ProcessEventsForFdError ProcessEventsForFdSuccess) ×
      List ReadRes × FdState) :=
  match events with
  | [] =>
      some ([(innerFdEventReadable reads s).1],
        (innerFdEventReadable reads s).2.1, (innerFdEventReadable reads s).2.2)
  | [Event.fdReady] =>
      some ([(innerFdEventReadable reads s).1],
        (innerFdEventReadable reads s).2.1, (innerFdEventReadable reads s).2.2)
  | [Event.signalReady] =>
      some ([Except.ok ProcessEventsForFdSuccess.signal], reads, s)
  | [_, _] =>
      some ([(innerFdEventReadable reads s).1,
        Except.ok ProcessEventsForFdSuccess.signal],
        (innerFdEventReadable reads s).2.1, (innerFdEventReadable reads s).2.2)
  | _ => none

/-- One iteration of `process_fd`'s poll: the wait delivered a list of
events, was interrupted (`EINTR`, leaving the event list empty), or failed
with another error. -/
inductive PollRes where
  | polled (evs : List Event)
  | interrupted
  | failed
deriving DecidableEq

/-- Errors `process_fd` can return: a poll failure, or an event-processing
error wrapped with context. -/
inductive ProcErr where
  | pollError
  | eventError (e : ProcessEventsForFdError)
deriving DecidableEq

/-- How a run of `process_fd` over a finite poll script ends: still looping
(`running`), returned `Ok(())`, returned an error, or panicked. -/
inductive ProcOut where
  | running
  | retOk
  | retErr (e : ProcErr)
  | panicked
deriving DecidableEq

/-- The body of `process_fd`'s loop for one delivered event list: process
the events, `remove(0)` the first outcome (`DataLogged` → keep looping,
`Eof`/`Signal` → return `Ok`, `Log` error → disable logging and keep
looping, other error → return it), then return `Ok` if a second (signal)
outcome is pending.  `some out` means the loop returns with `out`; `none`
means it continues. -/
def processOneCycle (evs : List Event) (reads : List ReadRes) (s : FdState) :
    Option ProcOut × List ReadRes × FdState :=
  match processEventsForFd evs reads s with
  | none => (some ProcOut.panicked, reads, s)
  | some (outcomes, reads', s') =>
      match outcomes with
      | [] => (some ProcOut.panicked, reads', s')
      | o :: restOut =>
          match o with
          | Except.ok ProcessEventsForFdSuccess.dataLogged =>
              (if restOut.length = 1 then some ProcOut.retOk else none, reads', s')
          | Except.ok ProcessEventsForFdSuccess.eof => (some ProcOut.retOk, reads', s')
          | Except.ok ProcessEventsForFdSuccess.signal => (some ProcOut.retOk, reads', s')
          | Except.error ProcessEventsForFdError.logE =>
              (if restOut.length = 1 then some ProcOut.retOk else none, reads',
                { s' with logEnabled := false })
          | Except.error ProcessEventsForFdError.readE =>
              (some (ProcOut.retErr (ProcErr.eventError ProcessEventsForFdError.readE)),
                reads', s')
          | Except.error ProcessEventsForFdError.writeE =>
              (some (ProcOut.retErr (ProcErr.eventError ProcessEventsForFdError.writeE)),
                reads', s')

/-- Function `process_fd` of src/fd.rs over a finite script of poll cycles.  A
failed (non-`EINTR`) poll returns an error; an interrupted poll is ignored
and the (empty) pending event list is processed; otherwise the delivered
events are processed.  When the script is exhausted the loop is still
`running`. -/
def processFd : List PollRes → List ReadRes → FdState →
    ProcOut × List ReadRes × FdState
  | [], reads, s => (ProcOut.running, reads, s)
  | PollRes.failed :: _, reads, s => (ProcOut.retErr ProcErr.pollError, reads, s)
  | PollRes.interrupted :: rest, reads, s =>
      match processOneCycle [] reads s with
      | (some out, reads', s') => (out, reads', s')
      | (none, reads', s') => processFd rest reads' s'
  | PollRes.polled evs :: rest, reads, s =>
      match processOneCycle evs reads s with
      | (some out, reads', s') => (out, reads', s')
      | (none, reads', s') => processFd rest reads' s'

/-
Process supervisor model (src/process.rs) and signal handler (src/signals.rs).
A child process is modelled by the results of the five interactions
`kill_child_process_with_grace_period` can perform, in the order they can
happen; the function additionally returns the trace of calls it made, so
that "no signal was sent" and "invoked with exactly these parameters" are
statable.  Durations are in milliseconds; signals are the raw signal
numbers used by `signal_hook`/`nix`.
-/

/-- An `ExitStatus`: exited with a code, terminated by a signal, or neither
classifiable (`status.code()` and `status.signal()` both `None`). -/
inductive ExitStatus where
  | exited (exitCode : Int)
  | signaled (signum : Int)
  | unknown
deriving DecidableEq

/-- Accessor `ExitStatus::code()`. -/
def ExitStatus.code : ExitStatus → Option Int
  | ExitStatus.exited c => some c
  | _ => none

/-- Accessor `ExitStatusExt::signal()`. -/
def ExitStatus.signalNum : ExitStatus → Option Int
  | ExitStatus.signaled n => some n
  | _ => none

/-- A call made on the child by the termination protocol. -/
inductive KAction where
  | tryWaitCall
  | killSignal (signum : Int)
  | waitTimeoutCall (millis : Nat)
  | killForce
deriving DecidableEq

/-- Errors of `kill_child_process_with_grace_period`: a failed
`try_wait`/`wait_timeout`, a failed `kill`, or the final
"Sent SIGKILL, child still alive". -/
inductive KillError where
  | waitError
  | signalError
  | stillAlive
deriving DecidableEq

/-- The scripted outcomes of the five child interactions, in protocol
order: `try_wait`, `kill(pid, signal)`, `wait_timeout(grace_period)`,
`Child::kill()` (SIGKILL), `wait_timeout(kill_deadline)`. -/
structure ChildModel where
  tryWaitRes : Except Unit (Option ExitStatus)
  killRes : Except Unit Unit
  waitGraceRes : Except Unit (Option ExitStatus)
  forceKillRes : Except Unit Unit
  waitKillRes : Except Unit (Option ExitStatus)

/-- Function `kill_child_process_with_grace_period` of src/process.rs, returning the
result together with the trace of calls made on the child. -/
def killChildProcessWithGracePeriod (child : ChildModel) (signal : Int)
    (gracePeriod killDeadline : Nat) : Except KillError ExitStatus × List KAction :=
  match child.tryWaitRes with
  | Except.error _ => (Except.error KillError.waitError, [KAction.tryWaitCall])
  | Except.ok (some status) => (Except.ok status, [KAction.tryWaitCall])
  | Except.ok none =>
      match child.killRes with
      | Except.error _ =>
          (Except.error KillError.signalError,
            [KAction.tryWaitCall, KAction.killSignal signal])
      | Except.ok _ =>
          match child.waitGraceRes with
          | Except.error _ =>
              (Except.error KillError.waitError,
                [KAction.tryWaitCall, KAction.killSignal signal,
                  KAction.waitTimeoutCall gracePeriod])
          | Except.ok (some status) =>
              (Except.ok status,
                [KAction.tryWaitCall, KAction.killSignal signal,
                  KAction.waitTimeoutCall gracePeriod])
          | Except.ok none =>
              match child.forceKillRes with
              | Except.error _ =>
                  (Except.error KillError.signalError,
                    [KAction.tryWaitCall, KAction.killSignal signal,
                      KAction.waitTimeoutCall gracePeriod, KAction.killForce])
              | Except.ok _ =>
                  match child.waitKillRes with
                  | Except.error _ =>
                      (Except.error KillError.waitError,
                        [KAction.tryWaitCall, KAction.killSignal signal,
                          KAction.waitTimeoutCall gracePeriod, KAction.killForce,
                          KAction.waitTimeoutCall killDeadline])
                  | Except.ok (some status) =>
                      (Except.ok status,
                        [KAction.tryWaitCall, KAction.killSignal signal,
                          KAction.waitTimeoutCall gracePeriod, KAction.killForce,
                          KAction.waitTimeoutCall killDeadline])
                  | Except.ok none =>
                      (Except.error KillError.stillAlive,
                        [KAction.tryWaitCall, KAction.killSignal signal,
                          KAction.waitTimeoutCall gracePeriod, KAction.killForce,
                          KAction.waitTimeoutCall killDeadline])

/-- Signal numbers used by the program. -/
def SIGHUP : Int := 1

def SIGINT : Int := 2

def SIGTERM : Int := 15

def SIGCHLD : Int := 17

/-- Destructor `ChildGuard::drop` of src/process.rs: run the termination protocol with
SIGTERM, a 15 s grace period and a 5 s kill deadline; report (rather than
re-raise) any error.  Returns the call trace and the reported error, if
any. -/
def childGuardDrop (child : ChildModel) : List KAction × Option KillError :=
  match killChildProcessWithGracePeriod child SIGTERM 15000 5000 with
  | (Except.ok _, trace) => (trace, none)
  | (Except.error e, trace) => (trace, some e)

/-- Function `process_signals` of src/signals.rs for the first delivered signal: a
termination signal triggers the protocol with that signal and the default
timeouts (`?` propagates its error before the sentinel write); then a
sentinel byte is written to the shutdown pipe (failure ignored).  Returns
the result, the child call trace, and whether the sentinel write was
attempted. -/
def processSignals (signum : Int) (child : ChildModel) :
    Except KillError Unit × List KAction × Bool :=
  if signum = SIGHUP ∨ signum = SIGINT ∨ signum = SIGTERM then
    match killChildProcessWithGracePeriod child signum 15000 5000 with
    | (Except.ok _, trace) => (Except.ok (), trace, true)
    | (Except.error e, trace) => (Except.error e, trace, false)
  else
    (Except.ok (), [], true)

/-- The exit-code mapping of src/main.rs (lines 261-280) applied to one
`ExitStatus`: the child's own exit code if present, else `128 + signal`,
else `1`. -/
def statusToExitCode (status : ExitStatus) : Int :=
  match status.code with
  | some c => c
  | none =>
      match status.signalNum with
      | some n => 128 + n
      | none => 1

/-- The orchestrator's final exit code from the last `try_wait`:
`map_or(1, ...)` over the optional status. -/
def finalExitCode : Option ExitStatus → Int
  | none => 1
  | some status => statusToExitCode status

/-
Helper lemmas shared by the claim theorems.
-/

/-- Every result in a write script is `ok` (the sink never fails). -/
abbrev allOk (ws : List WriteRes) : Prop := ∀ w ∈ ws, w = WriteRes.ok

/-- The slice `&buffer[..bytes_read]` written to the sinks is exactly the
chunk the read deposited. -/
theorem readChunk_eq (c buffer : List Nat) : readChunk c buffer = c := by
  unfold readChunk readIntoBuffer
  exact List.take_left c (buffer.drop c.length)

/-- Copy-fidelity invariant: both write scripts are failure-free, the bytes
delivered to the destination are exactly the bytes read so far, logging
enablement is `b`, and, when enabled, the log also holds exactly the bytes
read so far. -/
def FidInv (b : Bool) (s : FdState) : Prop :=
  allOk s.dstScript ∧ allOk s.logScript ∧ s.dstWritten = s.srcRead ∧
    s.logEnabled = b ∧ (b = true → s.logWritten = s.srcRead)

/-- The drain loop preserves the copy-fidelity invariant and cannot report
a log failure when the log script is failure-free. -/
theorem innerFdEventReadable_inv (b : Bool) :
    ∀ (reads : List ReadRes) (s : FdState), FidInv b s →
      FidInv b (innerFdEventReadable reads s).2.2 ∧
        (innerFdEventReadable reads s).1 ≠
          Except.error ProcessEventsForFdError.logE := by
  intro reads
  induction reads with
  | nil =>
      intro s h
      exact ⟨h, by simp [innerFdEventReadable]⟩
  | cons r rest ih =>
      intro s h
      obtain ⟨hd, hl, hdw, hle, hlw⟩ := h
      cases r with
      | wouldBlock =>
          exact ⟨⟨hd, hl, hdw, hle, hlw⟩, by simp [innerFdEventReadable]⟩
      | readErr =>
          exact ⟨⟨hd, hl, hdw, hle, hlw⟩, by simp [innerFdEventReadable]⟩
      | bytes c =>
          cases c with
          | nil =>
              exact ⟨⟨hd, hl, hdw, hle, hlw⟩, by simp [innerFdEventReadable]⟩
          | cons x xs =>
              have hpd : popWrite s.dstScript = (WriteRes.ok, s.dstScript.tail) := by
                cases hds : s.dstScript with
                | nil => simp [popWrite]
                | cons w ws =>
                    have hw : w = WriteRes.ok := hd w (by simp [hds])
                    simp [popWrite, hw]
              have hdtail : allOk s.dstScript.tail := by
                intro w hw
                exact hd w (List.mem_of_mem_tail hw)
              cases hleb : s.logEnabled with
              | true =>
                  have hpl : popWrite s.logScript = (WriteRes.ok, s.logScript.tail) := by
                    cases hls : s.logScript with
                    | nil => simp [popWrite]
                    | cons w ws =>
                        have hw : w = WriteRes.ok := hl w (by simp [hls])
                        simp [popWrite, hw]
                  have hltail : allOk s.logScript.tail := by
                    intro w hw
                    exact hl w (List.mem_of_mem_tail hw)
                  have hb : b = true := by rw [← hle, hleb]
                  have hgoal :
                      innerFdEventReadable (ReadRes.bytes (x :: xs) :: rest) s =
                        innerFdEventReadable rest
                          { afterReadState (x :: xs) s with
                              dstScript := s.dstScript.tail,
                              dstWritten := s.dstWritten ++ readChunk (x :: xs) s.buffer,
                              logScript := s.logScript.tail,
                              logWritten := s.logWritten ++ readChunk (x :: xs) s.buffer } := by
                    simp [innerFdEventReadable, hpd, hpl, hleb]
                  rw [hgoal]
                  refine ih _ ⟨hdtail, hltail, ?_, ?_, ?_⟩
                  · simp [afterReadState, readChunk_eq, hdw]
                  · simp [afterReadState, hle]
                  · intro _
                    simp [afterReadState, readChunk_eq, hlw hb]
              | false =>
                  have hgoal :
                      innerFdEventReadable (ReadRes.bytes (x :: xs) :: rest) s =
                        innerFdEventReadable rest
                          { afterReadState (x :: xs) s with
                              dstScript := s.dstScript.tail,
                              dstWritten := s.dstWritten ++ readChunk (x :: xs) s.buffer } := by
                    simp [innerFdEventReadable, hpd, hleb]
                  rw [hgoal]
                  refine ih _ ⟨hdtail, hl, ?_, ?_, ?_⟩
                  · simp [afterReadState, readChunk_eq, hdw]
                  · simp [afterReadState, hle]
                  · intro hb
                    rw [← hle, hleb] at hb
                    exact absurd hb (by simp)

/-- Event classification preserves the copy-fidelity invariant, and none of
its outcomes is a log failure when the log script is failure-free. -/
theorem processEventsForFd_inv (b : Bool) (evs : List Event) (reads : List ReadRes)
    (s : FdState) (h : FidInv b s) :
    ∀ outs rd s', processEventsForFd evs reads s = some (outs, rd, s') →
      FidInv b s' ∧ ∀ o ∈ outs, o ≠ Except.error ProcessEventsForFdError.logE := by
  intro outs rd s' heq
  have hinner := innerFdEventReadable_inv b reads s h
  match evs with
  | [] =>
      simp only [processEventsForFd, Option.some.injEq, Prod.mk.injEq] at heq
      obtain ⟨h1, _, h3⟩ := heq
      subst h1; subst h3
      exact ⟨hinner.1, by simpa using hinner.2⟩
  | [Event.fdReady] =>
      simp only [processEventsForFd, Option.some.injEq, Prod.mk.injEq] at heq
      obtain ⟨h1, _, h3⟩ := heq
      subst h1; subst h3
      exact ⟨hinner.1, by simpa using hinner.2⟩
  | [Event.signalReady] =>
      simp only [processEventsForFd, Option.some.injEq, Prod.mk.injEq] at heq
      obtain ⟨h1, _, h3⟩ := heq
      subst h1; subst h3
      exact ⟨h, by simp⟩
  | [e1, e2] =>
      simp only [processEventsForFd, Option.some.injEq, Prod.mk.injEq] at heq
      obtain ⟨h1, _, h3⟩ := heq
      subst h1; subst h3
      exact ⟨hinner.1, by simpa using hinner.2⟩
  | e1 :: e2 :: e3 :: tl =>
      simp [processEventsForFd] at heq

/-- One loop iteration preserves the copy-fidelity invariant. -/
theorem processOneCycle_inv (b : Bool) (evs : List Event) (reads : List ReadRes)
    (s : FdState) (h : FidInv b s) :
    FidInv b (processOneCycle evs reads s).2.2 := by
  unfold processOneCycle
  cases hpe : processEventsForFd evs reads s with
  | none => simpa using h
  | some t =>
      obtain ⟨outs, rd, s'⟩ := t
      have hi := processEventsForFd_inv b evs reads s h outs rd s' hpe
      cases outs with
      | nil => simpa using hi.1
      | cons o restOut =>
          cases o with
          | ok suc => cases suc <;> simpa using hi.1
          | error err =>
              cases err with
              | readE => simpa using hi.1
              | writeE => simpa using hi.1
              | logE =>
                  exact absurd rfl (hi.2 (Except.error ProcessEventsForFdError.logE)
                    (by simp))

/-- The first component of one loop iteration is never a poll error nor a
propagated log error. -/
theorem processOneCycle_first (evs : List Event) (reads : List ReadRes) (s : FdState) :
    (processOneCycle evs reads s).1 = none ∨
    (processOneCycle evs reads s).1 = some ProcOut.panicked ∨
    (processOneCycle evs reads s).1 = some ProcOut.retOk ∨
    (processOneCycle evs reads s).1 =
      some (ProcOut.retErr (ProcErr.eventError ProcessEventsForFdError.readE)) ∨
    (processOneCycle evs reads s).1 =
      some (ProcOut.retErr (ProcErr.eventError ProcessEventsForFdError.writeE)) := by
  unfold processOneCycle
  cases processEventsForFd evs reads s with
  | none => simp
  | some t =>
      obtain ⟨outs, rd, s'⟩ := t
      cases outs with
      | nil => simp
      | cons o restOut =>
          cases o with
          | ok suc =>
              cases suc with
              | dataLogged =>
                  by_cases hlen : restOut.length = 1 <;> simp [hlen]
              | eof => simp
              | signal => simp
          | error err =>
              cases err with
              | readE => simp
              | writeE => simp
              | logE =>
                  by_cases hlen : restOut.length = 1 <;> simp [hlen]

/-- Function `process_fd` preserves the copy-fidelity invariant. -/
theorem processFd_inv (b : Bool) :
    ∀ (script : List PollRes) (reads : List ReadRes) (s : FdState), FidInv b s →
      FidInv b (processFd script reads s).2.2 := by
  intro script
  induction script with
  | nil => intro reads s h; simpa [processFd] using h
  | cons cyc rest ih =>
      intro reads s h
      cases cyc with
      | failed => simpa [processFd] using h
      | interrupted =>
          have hc := processOneCycle_inv b [] reads s h
          cases hpc : processOneCycle [] reads s with
          | mk oOut t =>
              obtain ⟨rd, s'⟩ := t
              rw [hpc] at hc
              cases oOut with
              | some out => simpa [processFd, hpc] using hc
              | none =>
                  simpa [processFd, hpc] using ih rd s' hc
      | polled evs =>
          have hc := processOneCycle_inv b evs reads s h
          cases hpc : processOneCycle evs reads s with
          | mk oOut t =>
              obtain ⟨rd, s'⟩ := t
              rw [hpc] at hc
              cases oOut with
              | some out => simpa [processFd, hpc] using hc
              | none =>
                  simpa [processFd, hpc] using ih rd s' hc

/-- With logging disabled, the drain loop never touches the log: its script
and contents are untouched, logging stays disabled, and no log error can be
reported. -/
theorem innerFdEventReadable_logOff :
    ∀ (reads : List ReadRes) (s : FdState), s.logEnabled = false →
      (innerFdEventReadable reads s).2.2.logEnabled = false ∧
      (innerFdEventReadable reads s).2.2.logScript = s.logScript ∧
      (innerFdEventReadable reads s).2.2.logWritten = s.logWritten ∧
      (innerFdEventReadable reads s).1 ≠
        Except.error ProcessEventsForFdError.logE := by
  intro reads
  induction reads with
  | nil => intro s h; simp [innerFdEventReadable, h]
  | cons r rest ih =>
      intro s h
      cases r with
      | wouldBlock => simp [innerFdEventReadable, h]
      | readErr => simp [innerFdEventReadable, h]
      | bytes c =>
          cases c with
          | nil => simp [innerFdEventReadable, h]
          | cons x xs =>
              cases hpd : popWrite s.dstScript with
              | mk w ds =>
                  cases w with
                  | brokenPipe => simp [innerFdEventReadable, hpd, afterReadState, h]
                  | writeErr => simp [innerFdEventReadable, hpd, afterReadState, h]
                  | ok =>
                      have hgoal :
                          innerFdEventReadable (ReadRes.bytes (x :: xs) :: rest) s =
                            innerFdEventReadable rest
                              { afterReadState (x :: xs) s with
                                  dstScript := ds,
                                  dstWritten :=
                                    s.dstWritten ++ readChunk (x :: xs) s.buffer } := by
                        simp [innerFdEventReadable, hpd, h]
                      rw [hgoal]
                      have := ih
                        { afterReadState (x :: xs) s with
                            dstScript := ds,
                            dstWritten := s.dstWritten ++ readChunk (x :: xs) s.buffer }
                        (by simp [afterReadState, h])
                      simpa [afterReadState] using this

/-- With logging disabled, event classification never touches the log. -/
theorem processEventsForFd_logOff (evs : List Event) (reads : List ReadRes)
    (s : FdState) (h : s.logEnabled = false) :
    ∀ outs rd s', processEventsForFd evs reads s = some (outs, rd, s') →
      (s'.logEnabled = false ∧ s'.logScript = s.logScript ∧
        s'.logWritten = s.logWritten) ∧
      ∀ o ∈ outs, o ≠ Except.error ProcessEventsForFdError.logE := by
  intro outs rd s' heq
  have hinner := innerFdEventReadable_logOff reads s h
  match evs with
  | [] =>
      simp only [processEventsForFd, Option.some.injEq, Prod.mk.injEq] at heq
      obtain ⟨h1, _, h3⟩ := heq
      subst h1; subst h3
      exact ⟨⟨hinner.1, hinner.2.1, hinner.2.2.1⟩, by simpa using hinner.2.2.2⟩
  | [Event.fdReady] =>
      simp only [processEventsForFd, Option.some.injEq, Prod.mk.injEq] at heq
      obtain ⟨h1, _, h3⟩ := heq
      subst h1; subst h3
      exact ⟨⟨hinner.1, hinner.2.1, hinner.2.2.1⟩, by simpa using hinner.2.2.2⟩
  | [Event.signalReady] =>
      simp only [processEventsForFd, Option.some.injEq, Prod.mk.injEq] at heq
      obtain ⟨h1, _, h3⟩ := heq
      subst h1; subst h3
      exact ⟨⟨h, rfl, rfl⟩, by simp⟩
  | [e1, e2] =>
      simp only [processEventsForFd, Option.some.injEq, Prod.mk.injEq] at heq
      obtain ⟨h1, _, h3⟩ := heq
      subst h1; subst h3
      exact ⟨⟨hinner.1, hinner.2.1, hinner.2.2.1⟩, by simpa using hinner.2.2.2⟩
  | e1 :: e2 :: e3 :: tl =>
      simp [processEventsForFd] at heq

/-- With logging disabled, one loop iteration never touches the log. -/
theorem processOneCycle_logOff (evs : List Event) (reads : List ReadRes)
    (s : FdState) (h : s.logEnabled = false) :
    (processOneCycle evs reads s).2.2.logEnabled = false ∧
    (processOneCycle evs reads s).2.2.logScript = s.logScript ∧
    (processOneCycle evs reads s).2.2.logWritten = s.logWritten := by
  unfold processOneCycle
  cases hpe : processEventsForFd evs reads s with
  | none => simp [h]
  | some t =>
      obtain ⟨outs, rd, s'⟩ := t
      have hi := processEventsForFd_logOff evs reads s h outs rd s' hpe
      cases outs with
      | nil => simpa using hi.1
      | cons o restOut =>
          cases o with
          | ok suc => cases suc <;> simpa using hi.1
          | error err =>
              cases err with
              | readE => simpa using hi.1
              | writeE => simpa using hi.1
              | logE =>
                  exact absurd rfl (hi.2 (Except.error ProcessEventsForFdError.logE)
                    (by simp))

/-- Once logging is disabled, `process_fd` never re-enables it and never
writes to the log again. -/
theorem processFd_logOff :
    ∀ (script : List PollRes) (reads : List ReadRes) (s : FdState),
      s.logEnabled = false →
      (processFd script reads s).2.2.logEnabled = false ∧
      (processFd script reads s).2.2.logScript = s.logScript ∧
      (processFd script reads s).2.2.logWritten = s.logWritten := by
  intro script
  induction script with
  | nil => intro reads s h; simp [processFd, h]
  | cons cyc rest ih =>
      intro reads s h
      cases cyc with
      | failed => simp [processFd, h]
      | interrupted =>
          have hc := processOneCycle_logOff [] reads s h
          cases hpc : processOneCycle [] reads s with
          | mk oOut t =>
              obtain ⟨rd, s'⟩ := t
              rw [hpc] at hc
              cases oOut with
              | some out => simpa [processFd, hpc] using hc
              | none =>
                  have := ih rd s' (by simpa using hc.1)
                  rw [hc.2.1, hc.2.2] at this
                  simpa [processFd, hpc] using this
      | polled evs =>
          have hc := processOneCycle_logOff evs reads s h
          cases hpc : processOneCycle evs reads s with
          | mk oOut t =>
              obtain ⟨rd, s'⟩ := t
              rw [hpc] at hc
              cases oOut with
              | some out => simpa [processFd, hpc] using hc
              | none =>
                  have := ih rd s' (by simpa using hc.1)
                  rw [hc.2.1, hc.2.2] at this
                  simpa [processFd, hpc] using this

/-- Function `process_fd` never returns a propagated log error. -/
theorem processFd_no_logError :
    ∀ (script : List PollRes) (reads : List ReadRes) (s : FdState),
      (processFd script reads s).1 ≠
        ProcOut.retErr (ProcErr.eventError ProcessEventsForFdError.logE) := by
  intro script
  induction script with
  | nil => intro reads s; simp [processFd]
  | cons cyc rest ih =>
      intro reads s
      cases cyc with
      | failed => simp [processFd]
      | interrupted =>
          cases hpc : processOneCycle [] reads s with
          | mk oOut t =>
              obtain ⟨rd, s'⟩ := t
              have hc := processOneCycle_first [] reads s
              rw [hpc] at hc
              cases oOut with
              | some out =>
                  simp only [processFd, hpc]
                  rcases hc with h | h | h | h | h <;> simp_all
              | none => simpa [processFd, hpc] using ih rd s'
      | polled evs =>
          cases hpc : processOneCycle evs reads s with
          | mk oOut t =>
              obtain ⟨rd, s'⟩ := t
              have hc := processOneCycle_first evs reads s
              rw [hpc] at hc
              cases oOut with
              | some out =>
                  simp only [processFd, hpc]
                  rcases hc with h | h | h | h | h <;> simp_all
              | none => simpa [processFd, hpc] using ih rd s'

/-- When every poll failure in the script is an interruption, `process_fd`
never returns a poll error. -/
theorem processFd_no_pollError :
    ∀ (script : List PollRes) (reads : List ReadRes) (s : FdState),
      PollRes.failed ∉ script →
      (processFd script reads s).1 ≠ ProcOut.retErr ProcErr.pollError := by
  intro script
  induction script with
  | nil => intro reads s _; simp [processFd]
  | cons cyc rest ih =>
      intro reads s hmem
      have hrest : PollRes.failed ∉ rest := fun hr => hmem (List.mem_cons_of_mem _ hr)
      cases cyc with
      | failed => exact absurd (List.mem_cons_self _ _) hmem
      | interrupted =>
          cases hpc : processOneCycle [] reads s with
          | mk oOut t =>
              obtain ⟨rd, s'⟩ := t
              have hc := processOneCycle_first [] reads s
              rw [hpc] at hc
              cases oOut with
              | some out =>
                  simp only [processFd, hpc]
                  rcases hc with h | h | h | h | h <;> simp_all
              | none => simpa [processFd, hpc] using ih rd s' hrest
      | polled evs =>
          cases hpc : processOneCycle evs reads s with
          | mk oOut t =>
              obtain ⟨rd, s'⟩ := t
              have hc := processOneCycle_first evs reads s
              rw [hpc] at hc
              cases oOut with
              | some out =>
                  simp only [processFd, hpc]
                  rcases hc with h | h | h | h | h <;> simp_all
              | none => simpa [processFd, hpc] using ih rd s' hrest

/-
Claim theorems.
-/

/-- Claim C8: after all workers finish, the orchestrator maps the child's
final status to the parent's exit code: the child's own exit code when one
is present; `128 + signal number` when the child was terminated by a
signal; and `1` when the status cannot be classified either way, including
when the final non-blocking wait yields no status. -/
theorem c8_exit_code_mapping :
    ∀ (c n : Int),
      finalExitCode (some (ExitStatus.exited c)) = c ∧
      finalExitCode (some (ExitStatus.signaled n)) = 128 + n ∧
      finalExitCode (some ExitStatus.unknown) = 1 ∧
      finalExitCode none = 1 := by
  intro c n
  exact ⟨rfl, rfl, rfl, rfl⟩

/-- Claim C10: when the first delivered signal is SIGCHLD (not one of
SIGHUP/SIGINT/SIGTERM), `process_signals` performs no call of the
child-termination protocol (empty child trace), still writes the sentinel
wake-up byte, and returns `Ok(())`. -/
theorem c10_sigchld_no_termination :
    ∀ child : ChildModel,
      processSignals SIGCHLD child = (Except.ok (), [], true) := by
  intro child
  simp [processSignals, SIGCHLD, SIGHUP, SIGINT, SIGTERM]

/-- Claim C6: the escalating termination protocol, for every child, signal,
grace period and kill deadline: an already-exited child's status is
returned after the `try_wait` alone (no signal sent); otherwise the given
signal is sent and the status returned if the child exits within the grace
period; otherwise a forceful kill is sent and the status returned if the
child exits within the kill deadline; otherwise an error (still alive) is
returned rather than a status. -/
theorem c6_kill_escalation :
    ∀ (child : ChildModel) (sg : Int) (grace deadline : Nat) (st : ExitStatus),
      (child.tryWaitRes = Except.ok (some st) →
        killChildProcessWithGracePeriod child sg grace deadline =
          (Except.ok st, [KAction.tryWaitCall])) ∧
      (child.tryWaitRes = Except.ok none → child.killRes = Except.ok () →
        child.waitGraceRes = Except.ok (some st) →
        killChildProcessWithGracePeriod child sg grace deadline =
          (Except.ok st,
            [KAction.tryWaitCall, KAction.killSignal sg,
              KAction.waitTimeoutCall grace])) ∧
      (child.tryWaitRes = Except.ok none → child.killRes = Except.ok () →
        child.waitGraceRes = Except.ok none → child.forceKillRes = Except.ok () →
        child.waitKillRes = Except.ok (some st) →
        killChildProcessWithGracePeriod child sg grace deadline =
          (Except.ok st,
            [KAction.tryWaitCall, KAction.killSignal sg,
              KAction.waitTimeoutCall grace, KAction.killForce,
              KAction.waitTimeoutCall deadline])) ∧
      (child.tryWaitRes = Except.ok none → child.killRes = Except.ok () →
        child.waitGraceRes = Except.ok none → child.forceKillRes = Except.ok () →
        child.waitKillRes = Except.ok none →
        killChildProcessWithGracePeriod child sg grace deadline =
          (Except.error KillError.stillAlive,
            [KAction.tryWaitCall, KAction.killSignal sg,
              KAction.waitTimeoutCall grace, KAction.killForce,
              KAction.waitTimeoutCall deadline])) := by
  intro child sg grace deadline st
  refine ⟨?_, ?_, ?_, ?_⟩
  · intro h1
    simp [killChildProcessWithGracePeriod, h1]
  · intro h1 h2 h3
    simp [killChildProcessWithGracePeriod, h1, h2, h3]
  · intro h1 h2 h3 h4 h5
    simp [killChildProcessWithGracePeriod, h1, h2, h3, h4, h5]
  · intro h1 h2 h3 h4 h5
    simp [killChildProcessWithGracePeriod, h1, h2, h3, h4, h5]

/-- Claim C6 witness: the four escalation scenarios at concrete child
models. -/
theorem c6_kill_escalation_witness :
    killChildProcessWithGracePeriod
        ⟨Except.ok (some (ExitStatus.exited 0)), Except.ok (), Except.ok none,
          Except.ok (), Except.ok none⟩ 15 100 50 =
      (Except.ok (ExitStatus.exited 0), [KAction.tryWaitCall]) ∧
    killChildProcessWithGracePeriod
        ⟨Except.ok none, Except.ok (), Except.ok (some (ExitStatus.signaled 15)),
          Except.ok (), Except.ok none⟩ 15 100 50 =
      (Except.ok (ExitStatus.signaled 15),
        [KAction.tryWaitCall, KAction.killSignal 15, KAction.waitTimeoutCall 100]) ∧
    killChildProcessWithGracePeriod
        ⟨Except.ok none, Except.ok (), Except.ok none, Except.ok (),
          Except.ok (some (ExitStatus.signaled 9))⟩ 15 100 50 =
      (Except.ok (ExitStatus.signaled 9),
        [KAction.tryWaitCall, KAction.killSignal 15, KAction.waitTimeoutCall 100,
          KAction.killForce, KAction.waitTimeoutCall 50]) ∧
    killChildProcessWithGracePeriod
        ⟨Except.ok none, Except.ok (), Except.ok none, Except.ok (),
          Except.ok none⟩ 15 100 50 =
      (Except.error KillError.stillAlive,
        [KAction.tryWaitCall, KAction.killSignal 15, KAction.waitTimeoutCall 100,
          KAction.killForce, KAction.waitTimeoutCall 50]) :=
  ⟨(c6_kill_escalation _ 15 100 50 (ExitStatus.exited 0)).1 rfl,
    (c6_kill_escalation _ 15 100 50 (ExitStatus.signaled 15)).2.1 rfl rfl rfl,
    (c6_kill_escalation _ 15 100 50 (ExitStatus.signaled 9)).2.2.1 rfl rfl rfl rfl rfl,
    (c6_kill_escalation _ 15 100 50 ExitStatus.unknown).2.2.2 rfl rfl rfl rfl rfl⟩

/-- Claim C7: dropping a `ChildGuard` runs the escalating termination
protocol with exactly the default policy (SIGTERM, 15 s grace period, 5 s
kill deadline): its call trace is that protocol's trace, a protocol error
is reported (returned as a diagnostic) rather than re-raised, and a
protocol success reports nothing. -/
theorem c7_child_guard_drop_policy :
    ∀ child : ChildModel,
      (childGuardDrop child).1 =
        (killChildProcessWithGracePeriod child SIGTERM 15000 5000).2 ∧
      (∀ e, (killChildProcessWithGracePeriod child SIGTERM 15000 5000).1 =
          Except.error e → (childGuardDrop child).2 = some e) ∧
      (∀ st, (killChildProcessWithGracePeriod child SIGTERM 15000 5000).1 =
          Except.ok st → (childGuardDrop child).2 = none) := by
  intro child
  cases hk : killChildProcessWithGracePeriod child SIGTERM 15000 5000 with
  | mk r trace =>
      cases r with
      | ok st =>
          refine ⟨by simp [childGuardDrop, hk], ?_, ?_⟩
          · intro e he; simp at he
          · intro st' _; simp [childGuardDrop, hk]
      | error e =>
          refine ⟨by simp [childGuardDrop, hk], ?_, ?_⟩
          · intro e' he
            simp only [Except.error.injEq] at he
            subst he
            simp [childGuardDrop, hk]
          · intro st' hst; simp at hst

/-- Claim C7 witness: dropping a guard around an already-exited child and
around an unkillable child. -/
theorem c7_child_guard_drop_policy_witness :
    (childGuardDrop
        ⟨Except.ok (some (ExitStatus.exited 3)), Except.ok (), Except.ok none,
          Except.ok (), Except.ok none⟩).1 =
      (killChildProcessWithGracePeriod
        ⟨Except.ok (some (ExitStatus.exited 3)), Except.ok (), Except.ok none,
          Except.ok (), Except.ok none⟩ SIGTERM 15000 5000).2 ∧
    (childGuardDrop
        ⟨Except.ok (some (ExitStatus.exited 3)), Except.ok (), Except.ok none,
          Except.ok (), Except.ok none⟩).2 = none ∧
    (childGuardDrop
        ⟨Except.ok none, Except.ok (), Except.ok none, Except.ok (),
          Except.ok none⟩).2 = some KillError.stillAlive :=
  ⟨(c7_child_guard_drop_policy _).1,
    (c7_child_guard_drop_policy _).2.2 (ExitStatus.exited 3) rfl,
    (c7_child_guard_drop_policy _).2.1 KillError.stillAlive rfl⟩

/-- Claim C2: when a data-ready and a shutdown-ready event arrive in the
same readiness cycle, in either order, `process_events_for_fd` services
the data-readable event first (performing a drain) and yields the shutdown
outcome second; consequently, when the drain keeps the stream open,
`process_fd` exits for shutdown only after the drained state is
committed. -/
theorem c2_data_before_shutdown :
    ∀ (reads : List ReadRes) (s : FdState),
      processEventsForFd [Event.fdReady, Event.signalReady] reads s =
        processEventsForFd [Event.signalReady, Event.fdReady] reads s ∧
      processEventsForFd [Event.fdReady, Event.signalReady] reads s =
        some ([(innerFdEventReadable reads s).1,
          Except.ok ProcessEventsForFdSuccess.signal],
          (innerFdEventReadable reads s).2.1,
          (innerFdEventReadable reads s).2.2) ∧
      ((innerFdEventReadable reads s).1 =
          Except.ok ProcessEventsForFdSuccess.dataLogged →
        ∀ rest : List PollRes,
          processFd (PollRes.polled [Event.fdReady, Event.signalReady] :: rest)
              reads s =
            (ProcOut.retOk, (innerFdEventReadable reads s).2.1,
              (innerFdEventReadable reads s).2.2)) := by
  intro reads s
  refine ⟨rfl, rfl, ?_⟩
  intro h rest
  simp [processFd, processOneCycle, processEventsForFd, h]

/-- Claim C2 witness: a drain that ends in would-block followed by the
simultaneous shutdown event. -/
theorem c2_data_before_shutdown_witness :
    processFd [PollRes.polled [Event.fdReady, Event.signalReady]]
        [ReadRes.wouldBlock] ⟨[], [], false, [0], [], [], []⟩ =
      (ProcOut.retOk,
        (innerFdEventReadable [ReadRes.wouldBlock]
          ⟨[], [], false, [0], [], [], []⟩).2.1,
        (innerFdEventReadable [ReadRes.wouldBlock]
          ⟨[], [], false, [0], [], [], []⟩).2.2) :=
  (c2_data_before_shutdown [ReadRes.wouldBlock]
    ⟨[], [], false, [0], [], [], []⟩).2.2 rfl []

/-- Claim C3: on a data-ready wake-up the copier loops reading into the
buffer: a successful nonempty read writes those bytes to the sink (and
records them as read) before the next read is attempted; would-block ends
the drain with the continuing outcome, a zero-byte read with the
stream-closed outcome, and any other read failure with a read error. -/
theorem c3_drain_until_wouldblock :
    ∀ (x : Nat) (xs : List Nat) (rest : List ReadRes) (s : FdState),
      ((popWrite s.dstScript).1 = WriteRes.ok →
        (s.logEnabled = true → (popWrite s.logScript).1 = WriteRes.ok) →
        ∃ s' : FdState,
          innerFdEventReadable (ReadRes.bytes (x :: xs) :: rest) s =
            innerFdEventReadable rest s' ∧
          s'.dstWritten = s.dstWritten ++ (x :: xs) ∧
          s'.srcRead = s.srcRead ++ (x :: xs)) ∧
      innerFdEventReadable (ReadRes.wouldBlock :: rest) s =
        (Except.ok ProcessEventsForFdSuccess.dataLogged, rest, s) ∧
      innerFdEventReadable (ReadRes.bytes [] :: rest) s =
        (Except.ok ProcessEventsForFdSuccess.eof, rest, s) ∧
      innerFdEventReadable (ReadRes.readErr :: rest) s =
        (Except.error ProcessEventsForFdError.readE, rest, s) := by
  intro x xs rest s
  refine ⟨?_, rfl, rfl, rfl⟩
  intro h1 h2
  cases hpd : popWrite s.dstScript with
  | mk w ds =>
      rw [hpd] at h1
      simp only at h1
      subst h1
      cases hle : s.logEnabled with
      | true =>
          have h2' := h2 hle
          cases hpl : popWrite s.logScript with
          | mk lw ls =>
              rw [hpl] at h2'
              simp only at h2'
              subst h2'
              refine ⟨{ afterReadState (x :: xs) s with
                  dstScript := ds,
                  dstWritten := s.dstWritten ++ readChunk (x :: xs) s.buffer,
                  logScript := ls,
                  logWritten := s.logWritten ++ readChunk (x :: xs) s.buffer },
                ?_, ?_, ?_⟩
              · simp [innerFdEventReadable, hpd, hpl, hle]
              · simp [afterReadState, readChunk_eq]
              · simp [afterReadState]
      | false =>
          refine ⟨{ afterReadState (x :: xs) s with
              dstScript := ds,
              dstWritten := s.dstWritten ++ readChunk (x :: xs) s.buffer },
            ?_, ?_, ?_⟩
          · simp [innerFdEventReadable, hpd, hle]
          · simp [afterReadState, readChunk_eq]
          · simp [afterReadState]

/-- Claim C3 witness: one nonempty read then the terminal outcomes, on a
concrete state. -/
theorem c3_drain_until_wouldblock_witness :
    (∃ s' : FdState,
      innerFdEventReadable [ReadRes.bytes [1]] ⟨[], [], false, [0], [], [], []⟩ =
        innerFdEventReadable [] s' ∧
      s'.dstWritten = ([] : List Nat) ++ [1] ∧
      s'.srcRead = ([] : List Nat) ++ [1]) ∧
    innerFdEventReadable [ReadRes.wouldBlock] ⟨[], [], false, [0], [], [], []⟩ =
      (Except.ok ProcessEventsForFdSuccess.dataLogged, [],
        ⟨[], [], false, [0], [], [], []⟩) ∧
    innerFdEventReadable [ReadRes.bytes []] ⟨[], [], false, [0], [], [], []⟩ =
      (Except.ok ProcessEventsForFdSuccess.eof, [],
        ⟨[], [], false, [0], [], [], []⟩) ∧
    innerFdEventReadable [ReadRes.readErr] ⟨[], [], false, [0], [], [], []⟩ =
      (Except.error ProcessEventsForFdError.readE, [],
        ⟨[], [], false, [0], [], [], []⟩) :=
  ⟨(c3_drain_until_wouldblock 1 [] [] ⟨[], [], false, [0], [], [], []⟩).1 rfl
      (by decide),
    (c3_drain_until_wouldblock 1 [] [] ⟨[], [], false, [0], [], [], []⟩).2.1,
    (c3_drain_until_wouldblock 1 [] [] ⟨[], [], false, [0], [], [], []⟩).2.2.1,
    (c3_drain_until_wouldblock 1 [] [] ⟨[], [], false, [0], [], [], []⟩).2.2.2⟩

/-- Claim C5: a destination write that fails with broken pipe ends the
drain with the clean stream-closed outcome — no bytes are recorded as
delivered, no further destination write is attempted, and `process_fd`
returns `Ok(())` — while any other destination write failure makes
`process_fd` return a write error. -/
theorem c5_broken_pipe_clean_close :
    ∀ (x : Nat) (xs : List Nat) (rest : List ReadRes) (s : FdState)
      (ds : List WriteRes) (ps : List PollRes),
      (s.dstScript = WriteRes.brokenPipe :: ds →
        (innerFdEventReadable (ReadRes.bytes (x :: xs) :: rest) s).1 =
          Except.ok ProcessEventsForFdSuccess.eof ∧
        (innerFdEventReadable (ReadRes.bytes (x :: xs) :: rest) s).2.2.dstWritten =
          s.dstWritten ∧
        (innerFdEventReadable (ReadRes.bytes (x :: xs) :: rest) s).2.2.dstScript =
          ds ∧
        (innerFdEventReadable (ReadRes.bytes (x :: xs) :: rest) s).2.1 = rest) ∧
      (s.dstScript = WriteRes.brokenPipe :: ds →
        (processFd (PollRes.polled [Event.fdReady] :: ps)
            (ReadRes.bytes (x :: xs) :: rest) s).1 = ProcOut.retOk) ∧
      (s.dstScript = WriteRes.writeErr :: ds →
        (innerFdEventReadable (ReadRes.bytes (x :: xs) :: rest) s).1 =
          Except.error ProcessEventsForFdError.writeE ∧
        (innerFdEventReadable (ReadRes.bytes (x :: xs) :: rest) s).2.2.dstWritten =
          s.dstWritten) ∧
      (s.dstScript = WriteRes.writeErr :: ds →
        (processFd (PollRes.polled [Event.fdReady] :: ps)
            (ReadRes.bytes (x :: xs) :: rest) s).1 =
          ProcOut.retErr (ProcErr.eventError ProcessEventsForFdError.writeE)) := by
  intro x xs rest s ds ps
  refine ⟨?_, ?_, ?_, ?_⟩
  · intro h
    simp [innerFdEventReadable, popWrite, h, afterReadState]
  · intro h
    simp [processFd, processOneCycle, processEventsForFd, innerFdEventReadable,
      popWrite, h]
  · intro h
    simp [innerFdEventReadable, popWrite, h, afterReadState]
  · intro h
    simp [processFd, processOneCycle, processEventsForFd, innerFdEventReadable,
      popWrite, h]

/-- Claim C5 witness: a broken-pipe and an other-error destination write on
concrete states. -/
theorem c5_broken_pipe_clean_close_witness :
    ((innerFdEventReadable [ReadRes.bytes [2]]
        ⟨[WriteRes.brokenPipe], [], false, [0], [], [], []⟩).1 =
      Except.ok ProcessEventsForFdSuccess.eof ∧
    (innerFdEventReadable [ReadRes.bytes [2]]
        ⟨[WriteRes.brokenPipe], [], false, [0], [], [], []⟩).2.2.dstWritten =
      ([] : List Nat) ∧
    (innerFdEventReadable [ReadRes.bytes [2]]
        ⟨[WriteRes.brokenPipe], [], false, [0], [], [], []⟩).2.2.dstScript =
      ([] : List WriteRes) ∧
    (innerFdEventReadable [ReadRes.bytes [2]]
        ⟨[WriteRes.brokenPipe], [], false, [0], [], [], []⟩).2.1 =
      ([] : List ReadRes)) ∧
    (processFd [PollRes.polled [Event.fdReady]] [ReadRes.bytes [2]]
        ⟨[WriteRes.brokenPipe], [], false, [0], [], [], []⟩).1 = ProcOut.retOk ∧
    (processFd [PollRes.polled [Event.fdReady]] [ReadRes.bytes [2]]
        ⟨[WriteRes.writeErr], [], false, [0], [], [], []⟩).1 =
      ProcOut.retErr (ProcErr.eventError ProcessEventsForFdError.writeE) :=
  ⟨(c5_broken_pipe_clean_close 2 [] []
      ⟨[WriteRes.brokenPipe], [], false, [0], [], [], []⟩ [] []).1 rfl,
    (c5_broken_pipe_clean_close 2 [] []
      ⟨[WriteRes.brokenPipe], [], false, [0], [], [], []⟩ [] []).2.1 rfl,
    (c5_broken_pipe_clean_close 2 [] []
      ⟨[WriteRes.writeErr], [], false, [0], [], [], []⟩ [] []).2.2.2 rfl⟩

/-- Claim C9: a poll failure of the interrupted kind is never propagated —
if no poll failure of another kind occurs, `process_fd` never returns a
poll error; a poll failure of another kind makes it return a poll error at
once; and after an interruption with no pending data the loop goes on to
the next wait. -/
theorem c9_eintr_retry :
    (∀ (script : List PollRes) (reads : List ReadRes) (s : FdState),
      PollRes.failed ∉ script →
      (processFd script reads s).1 ≠ ProcOut.retErr ProcErr.pollError) ∧
    (∀ (rest : List PollRes) (reads : List ReadRes) (s : FdState),
      processFd (PollRes.failed :: rest) reads s =
        (ProcOut.retErr ProcErr.pollError, reads, s)) ∧
    (∀ (rest : List PollRes) (reads : List ReadRes) (s : FdState),
      (innerFdEventReadable reads s).1 =
          Except.ok ProcessEventsForFdSuccess.dataLogged →
      processFd (PollRes.interrupted :: rest) reads s =
        processFd rest (innerFdEventReadable reads s).2.1
          (innerFdEventReadable reads s).2.2) := by
  refine ⟨processFd_no_pollError, ?_, ?_⟩
  · intro rest reads s
    simp [processFd]
  · intro rest reads s h
    simp [processFd, processOneCycle, processEventsForFd, h]

/-- Claim C9 witness: an interrupted wait over a would-block source
retries, and a failed wait errors out. -/
theorem c9_eintr_retry_witness :
    ((processFd [PollRes.interrupted] [ReadRes.wouldBlock]
        ⟨[], [], false, [0], [], [], []⟩).1 ≠
      ProcOut.retErr ProcErr.pollError) ∧
    processFd [PollRes.failed] [] ⟨[], [], false, [0], [], [], []⟩ =
      (ProcOut.retErr ProcErr.pollError, [], ⟨[], [], false, [0], [], [], []⟩) ∧
    processFd [PollRes.interrupted] [ReadRes.wouldBlock]
        ⟨[], [], false, [0], [], [], []⟩ =
      processFd []
        (innerFdEventReadable [ReadRes.wouldBlock]
          ⟨[], [], false, [0], [], [], []⟩).2.1
        (innerFdEventReadable [ReadRes.wouldBlock]
          ⟨[], [], false, [0], [], [], []⟩).2.2 :=
  ⟨c9_eintr_retry.1 [PollRes.interrupted] [ReadRes.wouldBlock]
      ⟨[], [], false, [0], [], [], []⟩ (by decide),
    c9_eintr_retry.2.1 [] [] ⟨[], [], false, [0], [], [], []⟩,
    c9_eintr_retry.2.2 [] [ReadRes.wouldBlock] ⟨[], [], false, [0], [], [], []⟩ rfl⟩

/-- Claim C4: a log-sink write failure never makes `process_fd` return an
error: the loop goes on with logging permanently disabled for that stream
(the failing outcome only flips `maybe_log` off), and once disabled the
log is never written again while forwarding continues. -/
theorem c4_log_failure_isolation :
    (∀ (script : List PollRes) (reads : List ReadRes) (s : FdState),
      (processFd script reads s).1 ≠
        ProcOut.retErr (ProcErr.eventError ProcessEventsForFdError.logE)) ∧
    (∀ (evs : List Event) (rest : List PollRes) (reads rd : List ReadRes)
        (s s' : FdState),
      processEventsForFd evs reads s =
          some ([Except.error ProcessEventsForFdError.logE], rd, s') →
      processFd (PollRes.polled evs :: rest) reads s =
        processFd rest rd { s' with logEnabled := false }) ∧
    (∀ (script : List PollRes) (reads : List ReadRes) (s : FdState),
      s.logEnabled = false →
      (processFd script reads s).2.2.logWritten = s.logWritten ∧
      (processFd script reads s).2.2.logScript = s.logScript ∧
      (processFd script reads s).2.2.logEnabled = false) := by
  refine ⟨processFd_no_logError, ?_, ?_⟩
  · intro evs rest reads rd s s' h
    simp [processFd, processOneCycle, h]
  · intro script reads s h
    have := processFd_logOff script reads s h
    exact ⟨this.2.2, this.2.1, this.1⟩

/-- Claim C4 witness: a failing log write on a concrete state disables
logging and the loop continues; with logging disabled the log stays
untouched. -/
theorem c4_log_failure_isolation_witness :
    ((processFd [PollRes.polled [Event.fdReady]] [ReadRes.bytes [7]]
        ⟨[WriteRes.ok], [WriteRes.writeErr], true, [0], [], [], []⟩).1 ≠
      ProcOut.retErr (ProcErr.eventError ProcessEventsForFdError.logE)) ∧
    processFd [PollRes.polled [Event.fdReady]] [ReadRes.bytes [7]]
        ⟨[WriteRes.ok], [WriteRes.writeErr], true, [0], [], [], []⟩ =
      processFd [] []
        { (⟨[], [], true, [7], [7], [7], []⟩ : FdState) with logEnabled := false } ∧
    ((processFd [PollRes.polled [Event.fdReady]] [ReadRes.bytes [5]]
        ⟨[], [], false, [0], [], [], []⟩).2.2.logWritten = ([] : List Nat) ∧
      (processFd [PollRes.polled [Event.fdReady]] [ReadRes.bytes [5]]
        ⟨[], [], false, [0], [], [], []⟩).2.2.logScript = ([] : List WriteRes) ∧
      (processFd [PollRes.polled [Event.fdReady]] [ReadRes.bytes [5]]
        ⟨[], [], false, [0], [], [], []⟩).2.2.logEnabled = false) :=
  ⟨c4_log_failure_isolation.1 [PollRes.polled [Event.fdReady]] [ReadRes.bytes [7]]
      ⟨[WriteRes.ok], [WriteRes.writeErr], true, [0], [], [], []⟩,
    c4_log_failure_isolation.2.1 [Event.fdReady] [] [ReadRes.bytes [7]] []
      ⟨[WriteRes.ok], [WriteRes.writeErr], true, [0], [], [], []⟩
      ⟨[], [], true, [7], [7], [7], []⟩ rfl,
    c4_log_failure_isolation.2.2 [PollRes.polled [Event.fdReady]] [ReadRes.bytes [5]]
      ⟨[], [], false, [0], [], [], []⟩ rfl⟩

/-- Claim C1: copy fidelity — over any poll schedule and any sequence of
source read results, with a buffer of at least one byte and sinks that
never fail, the concatenation of bytes delivered to the destination equals
the concatenation of bytes successfully read from the source, and, when a
log sink is attached and none of its writes fail, the log's content equals
the destination's content. -/
theorem c1_copy_fidelity :
    ∀ (script : List PollRes) (reads : List ReadRes) (dstS logS : List WriteRes)
      (buf : List Nat) (logEn : Bool),
      1 ≤ buf.length → allOk dstS → allOk logS →
      (processFd script reads
          ⟨dstS, logS, logEn, buf, [], [], []⟩).2.2.dstWritten =
        (processFd script reads
          ⟨dstS, logS, logEn, buf, [], [], []⟩).2.2.srcRead ∧
      (logEn = true →
        (processFd script reads
            ⟨dstS, logS, logEn, buf, [], [], []⟩).2.2.logWritten =
          (processFd script reads
            ⟨dstS, logS, logEn, buf, [], [], []⟩).2.2.dstWritten) := by
  intro script reads dstS logS buf logEn _ hd hl
  have h0 : FidInv logEn ⟨dstS, logS, logEn, buf, [], [], []⟩ :=
    ⟨hd, hl, rfl, rfl, fun _ => rfl⟩
  have h := processFd_inv logEn script reads _ h0
  obtain ⟨_, _, h3, _, h5⟩ := h
  exact ⟨h3, fun hb => (h5 hb).trans h3.symm⟩

/-- Claim C1 witness: two chunks drained through a two-byte buffer with an
attached log. -/
theorem c1_copy_fidelity_witness :
    (processFd [PollRes.polled [Event.fdReady]]
        [ReadRes.bytes [1, 2], ReadRes.bytes [3], ReadRes.wouldBlock]
        ⟨[WriteRes.ok], [WriteRes.ok], true, [0, 0], [], [], []⟩).2.2.dstWritten =
      (processFd [PollRes.polled [Event.fdReady]]
        [ReadRes.bytes [1, 2], ReadRes.bytes [3], ReadRes.wouldBlock]
        ⟨[WriteRes.ok], [WriteRes.ok], true, [0, 0], [], [], []⟩).2.2.srcRead ∧
    (true = true →
      (processFd [PollRes.polled [Event.fdReady]]
          [ReadRes.bytes [1, 2], ReadRes.bytes [3], ReadRes.wouldBlock]
          ⟨[WriteRes.ok], [WriteRes.ok], true, [0, 0], [], [], []⟩).2.2.logWritten =
        (processFd [PollRes.polled [Event.fdReady]]
          [ReadRes.bytes [1, 2], ReadRes.bytes [3], ReadRes.wouldBlock]
          ⟨[WriteRes.ok], [WriteRes.ok], true, [0, 0], [], [], []⟩).2.2.dstWritten) :=
  c1_copy_fidelity [PollRes.polled [Event.fdReady]]
    [ReadRes.bytes [1, 2], ReadRes.bytes [3], ReadRes.wouldBlock]
    [WriteRes.ok] [WriteRes.ok] [0, 0] true (by decide) (by decide) (by decide)
